import Mathlib

/-!
Shallow embedding of the persistent-memory core of the AutoMinds voice
service (src/app.py): the three SQLite tables (messages, memories,
summaries), their CRUD operations, the keyword fact extractor, the
post-call summarizer and the JSON export/import used for backup/restore.

SQLite rows are modelled as records carrying their AUTOINCREMENT id; a
table is the list of its rows in insertion order together with the next
id to be assigned.  `ORDER BY id` is modelled by an explicit insertion
sort on the id field.  Wall-clock timestamps (`datetime.now(...)` in the
source) are passed as explicit string arguments.  The external Gemini
call and `json.loads` are modelled as parameters of the summarizer: an
optional raw response text (`none` = the network call raised) and a
parse oracle returning the fields the code reads from the decoded JSON.
-/

namespace Autominds

/-- A row of the `messages` table. -/
structure Message where
  id : Nat
  phone : String
  role : String
  content : String
  timestamp : String
deriving DecidableEq

/-- A row of the `memories` table (a long-term fact). -/
structure Memory where
  id : Nat
  phone : String
  fact : String
  category : String
  timestamp : String
deriving DecidableEq

/-- A row of the `summaries` table. -/
structure Summary where
  id : Nat
  phone : String
  summary : String
  message_count : Int
  timestamp : String
deriving DecidableEq

/-- The whole SQLite database: the three tables in insertion order plus
the next AUTOINCREMENT id of each. -/
structure DB where
  messages : List Message
  memories : List Memory
  summaries : List Summary
  nextMessageId : Nat
  nextMemoryId : Nat
  nextSummaryId : Nat
deriving DecidableEq

/-- The freshly initialised database (`init_db`): empty tables, ids start at 1. -/
def emptyDB : DB :=
  { messages := [], memories := [], summaries := [],
    nextMessageId := 1, nextMemoryId := 1, nextSummaryId := 1 }

/-- The INSERT statement on `messages` (used by `save_message` and by
the import loop): appends a fresh row with the next id. -/
def insert_message (db : DB) (phone role content ts : String) : DB :=
  { db with
    messages := db.messages ++ [⟨db.nextMessageId, phone, role, content, ts⟩],
    nextMessageId := db.nextMessageId + 1 }

/-- The INSERT OR IGNORE statement on `memories` (used by `save_memory`
and by the import loop): the UNIQUE(phone, fact) constraint makes the
insert a no-op when a row with the same (phone, fact) already exists. -/
def insert_or_ignore_memory (db : DB) (phone fact category ts : String) : DB :=
  if db.memories.any (fun m => m.phone == phone && m.fact == fact) then db
  else
    { db with
      memories := db.memories ++ [⟨db.nextMemoryId, phone, fact, category, ts⟩],
      nextMemoryId := db.nextMemoryId + 1 }

/-- The INSERT statement on `summaries` (used by `save_summary` and by
the import loop): always appends. -/
def insert_summary (db : DB) (phone summary : String) (message_count : Int) (ts : String) : DB :=
  { db with
    summaries := db.summaries ++ [⟨db.nextSummaryId, phone, summary, message_count, ts⟩],
    nextSummaryId := db.nextSummaryId + 1 }

/-- `save_message(phone, role, content)`: append one message row, with the
current time `now` as timestamp. -/
def save_message (db : DB) (phone role content now : String) : DB :=
  insert_message db phone role content now

/-- `save_memory(phone, fact, category)`: INSERT OR IGNORE into `memories`. -/
def save_memory (db : DB) (phone fact category now : String) : DB :=
  insert_or_ignore_memory db phone fact category now

/-- `save_summary(phone, summary, message_count)`: append one summary row. -/
def save_summary (db : DB) (phone summary : String) (message_count : Int) (now : String) : DB :=
  insert_summary db phone summary message_count now

/-- The (role, content, timestamp) projection the history queries return. -/
structure HistoryRow where
  role : String
  content : String
  timestamp : String
deriving DecidableEq

/-- `get_all_history(phone)`: SELECT role, content, timestamp FROM messages
WHERE phone = ? ORDER BY id. -/
def get_all_history (db : DB) (phone : String) : List HistoryRow :=
  (List.insertionSort (fun a b => a.id ≤ b.id)
      (db.messages.filter (fun m => m.phone == phone))).map
    (fun m => ⟨m.role, m.content, m.timestamp⟩)

/-- `get_conversation_history(phone, limit)`: SELECT ... WHERE phone = ?
ORDER BY id DESC LIMIT ?, then the row list is reversed (oldest first). -/
def get_conversation_history (db : DB) (phone : String) (limit : Nat) : List HistoryRow :=
  (((List.insertionSort (fun a b => b.id ≤ a.id)
        (db.messages.filter (fun m => m.phone == phone))).take limit).reverse).map
    (fun m => ⟨m.role, m.content, m.timestamp⟩)

/-- The (fact, category, timestamp) projection `get_memories` returns. -/
structure MemoryRow where
  fact : String
  category : String
  timestamp : String
deriving DecidableEq

/-- `get_memories(phone)`: SELECT fact, category, timestamp FROM memories
WHERE phone = ? ORDER BY id. -/
def get_memories (db : DB) (phone : String) : List MemoryRow :=
  (List.insertionSort (fun a b => a.id ≤ b.id)
      (db.memories.filter (fun m => m.phone == phone))).map
    (fun m => ⟨m.fact, m.category, m.timestamp⟩)

/-- The (summary, message_count, timestamp) projection `get_summaries` returns. -/
structure SummaryRow where
  summary : String
  message_count : Int
  timestamp : String
deriving DecidableEq

/-- `get_summaries(phone)`: SELECT summary, message_count, timestamp FROM
summaries WHERE phone = ? ORDER BY id. -/
def get_summaries (db : DB) (phone : String) : List SummaryRow :=
  (List.insertionSort (fun a b => a.id ≤ b.id)
      (db.summaries.filter (fun m => m.phone == phone))).map
    (fun m => ⟨m.summary, m.message_count, m.timestamp⟩)

/-- `get_message_count(phone)`: SELECT COUNT(*) FROM messages WHERE phone = ?. -/
def get_message_count (db : DB) (phone : String) : Nat :=
  (db.messages.filter (fun m => m.phone == phone)).length

/-! ## Backup snapshot (export / import) -/

/-- One entry of the `messages` list of a JSON snapshot.  Every field is
optional: `none` models a missing dictionary key, which makes the import
loop raise `KeyError` and skip the entry. -/
structure MsgEntry where
  phone : Option String
  role : Option String
  content : Option String
  timestamp : Option String
deriving DecidableEq

/-- One entry of the `memories` list of a JSON snapshot. -/
structure MemEntry where
  phone : Option String
  fact : Option String
  category : Option String
  timestamp : Option String
deriving DecidableEq

/-- One entry of the `summaries` list of a JSON snapshot. -/
structure SumEntry where
  phone : Option String
  summary : Option String
  message_count : Option Int
  timestamp : Option String
deriving DecidableEq

/-- A JSON snapshot dictionary.  A `none` list models a dictionary missing
that key, which `data.get(key, [])` turns into an empty replay. -/
structure SnapshotData where
  messages : Option (List MsgEntry)
  memories : Option (List MemEntry)
  summaries : Option (List SumEntry)
  exported_at : Option String
deriving DecidableEq

/-- `export_memory_to_json()`: dump the three tables, each ORDER BY id,
plus the export timestamp `now`. -/
def export_memory_to_json (db : DB) (now : String) : SnapshotData :=
  { messages := some ((List.insertionSort (fun a b => a.id ≤ b.id) db.messages).map
      (fun m => ⟨some m.phone, some m.role, some m.content, some m.timestamp⟩)),
    memories := some ((List.insertionSort (fun a b => a.id ≤ b.id) db.memories).map
      (fun m => ⟨some m.phone, some m.fact, some m.category, some m.timestamp⟩)),
    summaries := some ((List.insertionSort (fun a b => a.id ≤ b.id) db.summaries).map
      (fun s => ⟨some s.phone, some s.summary, some s.message_count, some s.timestamp⟩)),
    exported_at := some now }

/-- One iteration of the message replay loop of `import_memory_from_json`:
a fresh INSERT, with any exception (a missing key) swallowed, skipping
the entry. -/
def import_one_message (db : DB) (m : MsgEntry) : DB :=
  match m.phone, m.role, m.content, m.timestamp with
  | some p, some r, some c, some t => insert_message db p r c t
  | _, _, _, _ => db

/-- One iteration of the memory replay loop of `import_memory_from_json`:
an INSERT OR IGNORE, with any exception swallowed. -/
def import_one_memory (db : DB) (m : MemEntry) : DB :=
  match m.phone, m.fact, m.category, m.timestamp with
  | some p, some f, some c, some t => insert_or_ignore_memory db p f c t
  | _, _, _, _ => db

/-- One iteration of the summary replay loop of `import_memory_from_json`:
a fresh INSERT, with any exception swallowed. -/
def import_one_summary (db : DB) (s : SumEntry) : DB :=
  match s.phone, s.summary, s.message_count, s.timestamp with
  | some p, some su, some mc, some t => insert_summary db p su mc t
  | _, _, _, _ => db

/-- `import_memory_from_json(data)`: replay messages, then memories, then
summaries; messages and summaries as fresh appends, memories through
INSERT OR IGNORE; per-entry failures are skipped individually. -/
def import_memory_from_json (db : DB) (data : SnapshotData) : DB :=
  let db1 := (data.messages.getD []).foldl import_one_message db
  let db2 := (data.memories.getD []).foldl import_one_memory db1
  (data.summaries.getD []).foldl import_one_summary db2

/-! ## FactExtractor -/

/-- Python `str.lower()` (ASCII case folding, as the trigger phrases are
ASCII), written over the character list so it evaluates by reduction. -/
def toLowerStr (s : String) : String := String.mk (s.toList.map Char.toLower)

/-- Python `str.strip()`: drop leading and trailing whitespace. -/
def trimStr (s : String) : String :=
  String.mk (((s.toList.dropWhile Char.isWhitespace).reverse.dropWhile
    Char.isWhitespace).reverse)

/-- Python `str.startswith(pre)`. -/
def startsWithStr (s pre : String) : Bool := pre.toList.isPrefixOf s.toList

/-- The Python substring operator `needle in hay`. -/
def strContains (hay needle : String) : Bool :=
  (List.range (hay.toList.length + 1)).any
    (fun i => needle.toList.isPrefixOf (hay.toList.drop i))

/-- The ordered category table of `extract_memories_from_message`
(`fact_patterns` in the source), in source order. -/
def fact_patterns : List (String × List String) :=
  [("preference", ["i like", "i love", "i prefer", "i hate", "i enjoy", "my favorite"]),
   ("personal", ["my name is", "i live in", "i work at", "my job is", "i am a", "i\x27m a"]),
   ("goal", ["i want to", "i need to", "my goal is", "i plan to", "i\x27m trying to",
             "i aim to"]),
   ("business", ["my company", "my business", "my startup", "my product", "my client",
                 "revenue", "profit", "growth"]),
   ("reminder", ["remind me", "don\x27t forget", "remember that", "keep in mind"])]

/-- The double loop of `extract_memories_from_message`: the first category
(in table order) one of whose keywords occurs in the lowered speech. -/
def firstMatchCategory (speech_lower : String) : Option String :=
  fact_patterns.findSome?
    (fun p => if p.2.any (fun kw => strContains speech_lower kw) then some p.1 else none)

/-- `extract_memories_from_message(phone, user_speech)`: lower the speech,
scan the category table in order, and on the first matching category save
the stripped utterance as one memory and return; no match saves nothing. -/
def extract_memories_from_message (db : DB) (phone user_speech now : String) : DB :=
  match firstMatchCategory (toLowerStr user_speech) with
  | some category => save_memory db phone (trimStr user_speech) category now
  | none => db

/-! ## Summarizer -/

/-- The characters after the first newline of `l`, or `none` when there is
no newline (in which case `text.split('\n', 1)[1]` raises IndexError). -/
def afterFirstNewline : List Char → Option (List Char)
  | [] => none
  | c :: cs => if c = '\n' then some cs else afterFirstNewline cs

/-- The characters before the last occurrence of the three-backtick fence,
or all of `l` when there is none (`text.rsplit` with one split). -/
def beforeLastFence (l : List Char) : List Char :=
  match ((List.range (l.length + 1)).filter
      (fun i => ['\x60', '\x60', '\x60'].isPrefixOf (l.drop i))).getLast? with
  | some i => l.take i
  | none => l

/-- The fence-stripping step of `summarize_and_extract`:
`text = response.text.strip()`, then when `text` starts with a fence,
`text.split('\n', 1)[1].rsplit('\x60\x60\x60', 1)[0].strip()`.  Returns
`none` on the IndexError path (a fenced text with no newline), which the
surrounding `try` swallows. -/
def stripFence (raw : String) : Option String :=
  let text := trimStr raw
  if startsWithStr text "\x60\x60\x60" then
    match afterFirstNewline text.toList with
    | none => none
    | some rest => some (trimStr (String.mk (beforeLastFence rest)))
  else some text

/-- The fields `summarize_and_extract` reads from the decoded JSON object:
`result.get('summary')` (`none` = key absent), `result.get('facts', [])`
and `result.get('action_items', [])`. -/
structure SummaryResult where
  summary : Option String
  facts : List String
  action_items : List String
deriving DecidableEq

/-- `summarize_and_extract(phone)`.  `resp` is the external model call:
`none` models `generate_content` (or anything before it) raising, which
the `try` swallows with nothing written.  `parse` models
`json.loads` plus the dictionary reads: `none` models a parse failure
(or a decoded value on which the reads raise), also swallowed.  On
success the summary is saved only when truthy (non-empty), then each
fact under category "extracted", then each action item with the
"ACTION: " prefix under category "action_item". -/
def summarize_and_extract (db : DB) (phone : String) (resp : Option String)
    (parse : String → Option SummaryResult) (now : String) : DB :=
  let all_msgs := get_all_history db phone
  if all_msgs.length < 4 then db
  else
    match resp with
    | none => db
    | some raw =>
      match stripFence raw with
      | none => db
      | some text =>
        match parse text with
        | none => db
        | some result =>
          let db1 :=
            match result.summary with
            | some s => if s = "" then db else save_summary db phone s (all_msgs.length : Int) now
            | none => db
          let db2 := result.facts.foldl (fun d f => save_memory d phone f "extracted" now) db1
          result.action_items.foldl
            (fun d it => save_memory d phone ("ACTION: " ++ it) "action_item" now) db2

/-! ## Derived test fixtures and spec-side predicates -/

/-- Number of `memories` rows with the given (phone, fact) pair. -/
def countFact (db : DB) (phone fact : String) : Nat :=
  (db.memories.filter (fun m => m.phone == phone && m.fact == fact)).length

/-- Replay a sequence of `save_message` appends for one identity; each
element is a (role, content, timestamp) triple. -/
def replayAppends (db : DB) (phone : String) (xs : List (String × String × String)) : DB :=
  xs.foldl (fun d x => save_message d phone x.1 x.2.1 x.2.2) db

/-- Spec-side reading of §4.5: the category's keyword list has a phrase
occurring in the lowered utterance. -/
def categoryMatches (u : String) (kws : List String) : Prop :=
  ∃ kw ∈ kws, strContains (toLowerStr u) kw = true

/-- Spec-side reading of §4.5 first-match-wins: `cat` (with keyword list
`kws`) is the FIRST category of the table matching utterance `u`: the
table splits as `pre ++ (cat, kws) :: post`, no category of `pre`
matches, and `(cat, kws)` matches. -/
def FirstMatching (u cat : String) (kws : List String) : Prop :=
  ∃ pre post, fact_patterns = pre ++ (cat, kws) :: post ∧
    (∀ q ∈ pre, ¬ categoryMatches u q.2) ∧ categoryMatches u kws

/-! ## Invariant: every table holds its rows in strictly increasing id
order, all ids below the table's next AUTOINCREMENT id. -/

def WfMessages (db : DB) : Prop :=
  db.messages.Pairwise (fun a b => a.id < b.id) ∧
    ∀ m ∈ db.messages, m.id < db.nextMessageId

def WfMemories (db : DB) : Prop :=
  db.memories.Pairwise (fun a b => a.id < b.id) ∧
    ∀ m ∈ db.memories, m.id < db.nextMemoryId

def WfSummaries (db : DB) : Prop :=
  db.summaries.Pairwise (fun a b => a.id < b.id) ∧
    ∀ s ∈ db.summaries, s.id < db.nextSummaryId

def Wf (db : DB) : Prop := WfMessages db ∧ WfMemories db ∧ WfSummaries db

instance (db : DB) : Decidable (WfMessages db) := by unfold WfMessages; infer_instance

instance (db : DB) : Decidable (WfMemories db) := by unfold WfMemories; infer_instance

instance (db : DB) : Decidable (WfSummaries db) := by unfold WfSummaries; infer_instance

instance (db : DB) : Decidable (Wf db) := by unfold Wf; infer_instance

/-! ## Sorting lemmas: under the invariant, ORDER BY id is the identity
(ascending) or reversal (descending) of the stored row list. -/

theorem insertionSort_asc_of_pairwise {α : Type} (f : α → Nat) (l : List α)
    (h : l.Pairwise (fun a b => f a < f b)) :
    List.insertionSort (fun a b => f a ≤ f b) l = l :=
  List.Sorted.insertionSort_eq (h.imp fun hab => Nat.le_of_lt hab)

theorem orderedInsert_of_forall_not {α : Type} (r : α → α → Prop) [DecidableRel r] (x : α)
    (l : List α) (h : ∀ y ∈ l, ¬ r x y) :
    List.orderedInsert r x l = l ++ [x] := by
  induction l with
  | nil => rfl
  | cons y ys ih =>
    rw [List.orderedInsert, if_neg (h y (List.mem_cons_self y ys)),
      ih (fun z hz => h z (List.mem_cons_of_mem y hz))]
    rfl

theorem insertionSort_desc_of_pairwise {α : Type} (f : α → Nat) (l : List α)
    (h : l.Pairwise (fun a b => f a < f b)) :
    List.insertionSort (fun a b => f b ≤ f a) l = l.reverse := by
  induction l with
  | nil => rfl
  | cons x xs ih =>
    have hps := List.pairwise_cons.mp h
    have hx : ∀ y ∈ xs.reverse, ¬ (f y ≤ f x) := by
      intro y hy
      have := hps.1 y (List.mem_reverse.mp hy)
      omega
    rw [List.insertionSort, ih hps.2, orderedInsert_of_forall_not _ x xs.reverse hx]
    simp

/-! ## Collapse lemmas for the history queries. -/

theorem get_all_history_eq_filter (db : DB) (phone : String) (h : WfMessages db) :
    get_all_history db phone =
      (db.messages.filter (fun m => m.phone == phone)).map
        (fun m => ⟨m.role, m.content, m.timestamp⟩) := by
  unfold get_all_history
  rw [insertionSort_asc_of_pairwise Message.id _ (List.Pairwise.filter _ h.1)]

theorem get_conversation_history_eq_filter (db : DB) (phone : String) (k : Nat)
    (h : WfMessages db) :
    get_conversation_history db phone k =
      ((((db.messages.filter (fun m => m.phone == phone)).reverse).take k).reverse).map
        (fun m => ⟨m.role, m.content, m.timestamp⟩) := by
  unfold get_conversation_history
  rw [insertionSort_desc_of_pairwise Message.id _ (List.Pairwise.filter _ h.1)]

theorem length_get_all_history (db : DB) (phone : String) :
    (get_all_history db phone).length = get_message_count db phone := by
  unfold get_all_history get_message_count
  rw [List.length_map, List.length_insertionSort]

/-! ## Effect lemmas for the insert statements. -/

theorem save_memory_messages (db : DB) (p f c t : String) :
    (save_memory db p f c t).messages = db.messages := by
  unfold save_memory insert_or_ignore_memory
  split <;> rfl

theorem save_memory_summaries (db : DB) (p f c t : String) :
    (save_memory db p f c t).summaries = db.summaries := by
  unfold save_memory insert_or_ignore_memory
  split <;> rfl

theorem save_memory_mem_mono (db : DB) (p f c t : String) (m : Memory)
    (hm : m ∈ db.memories) : m ∈ (save_memory db p f c t).memories := by
  unfold save_memory insert_or_ignore_memory
  split
  · exact hm
  · exact List.mem_append_left _ hm

theorem save_memory_mem_cases (db : DB) (p f c t : String) (m : Memory)
    (hm : m ∈ (save_memory db p f c t).memories) :
    m ∈ db.memories ∨ (m.phone = p ∧ m.fact = f ∧ m.category = c) := by
  unfold save_memory insert_or_ignore_memory at hm
  split at hm
  · exact Or.inl hm
  · rcases List.mem_append.mp hm with h | h
    · exact Or.inl h
    · right
      rcases List.mem_singleton.mp h with rfl
      exact ⟨rfl, rfl, rfl⟩

theorem save_memory_present (db : DB) (p f c t : String) :
    ∃ m ∈ (save_memory db p f c t).memories, m.phone = p ∧ m.fact = f := by
  unfold save_memory insert_or_ignore_memory
  split
  · rename_i hany
    rcases List.any_eq_true.mp hany with ⟨m, hm, hmt⟩
    simp only [Bool.and_eq_true, beq_iff_eq] at hmt
    exact ⟨m, hm, hmt.1, hmt.2⟩
  · refine ⟨⟨db.nextMemoryId, p, f, c, t⟩, ?_, rfl, rfl⟩
    exact List.mem_append_right _ (List.mem_singleton.mpr rfl)

theorem save_memory_of_present (db : DB) (p f c t : String)
    (h : ∃ m ∈ db.memories, m.phone = p ∧ m.fact = f) :
    save_memory db p f c t = db := by
  unfold save_memory insert_or_ignore_memory
  rcases h with ⟨m, hm, h1, h2⟩
  rw [if_pos]
  refine List.any_eq_true.mpr ⟨m, hm, ?_⟩
  simp only [Bool.and_eq_true, beq_iff_eq]
  exact ⟨h1, h2⟩

theorem wfMessages_insert_message (db : DB) (p r c t : String) (h : WfMessages db) :
    WfMessages (insert_message db p r c t) := by
  unfold WfMessages insert_message
  constructor
  · rw [List.pairwise_append]
    refine ⟨h.1, List.pairwise_singleton _ _, ?_⟩
    intro a ha b hb
    rcases List.mem_singleton.mp hb with rfl
    exact h.2 a ha
  · intro m hm
    rcases List.mem_append.mp hm with hm | hm
    · exact Nat.lt_trans (h.2 m hm) (Nat.lt_succ_self _)
    · rcases List.mem_singleton.mp hm with rfl
      exact Nat.lt_succ_self _

theorem get_all_history_save_same (db : DB) (p r c t : String) (h : WfMessages db) :
    get_all_history (save_message db p r c t) p = get_all_history db p ++ [⟨r, c, t⟩] := by
  unfold save_message
  rw [get_all_history_eq_filter _ _ (wfMessages_insert_message db p r c t h),
      get_all_history_eq_filter _ _ h]
  show ((db.messages ++ [(⟨db.nextMessageId, p, r, c, t⟩ : Message)]).filter _).map _ = _
  rw [List.filter_append]
  simp

/-! ## Fold lemmas for batches of `save_memory` calls (the summarizer's
fact and action-item loops). -/

theorem foldl_save_memory_messages {β : Type} (p t : String) (g catf : β → String)
    (L : List β) (db : DB) :
    (L.foldl (fun d x => save_memory d p (g x) (catf x) t) db).messages = db.messages := by
  induction L generalizing db with
  | nil => rfl
  | cons x xs ih => rw [List.foldl_cons, ih, save_memory_messages]

theorem foldl_save_memory_summaries {β : Type} (p t : String) (g catf : β → String)
    (L : List β) (db : DB) :
    (L.foldl (fun d x => save_memory d p (g x) (catf x) t) db).summaries = db.summaries := by
  induction L generalizing db with
  | nil => rfl
  | cons x xs ih => rw [List.foldl_cons, ih, save_memory_summaries]

theorem foldl_save_memory_mem_mono {β : Type} (p t : String) (g catf : β → String)
    (L : List β) (db : DB) (m : Memory) (hm : m ∈ db.memories) :
    m ∈ (L.foldl (fun d x => save_memory d p (g x) (catf x) t) db).memories := by
  induction L generalizing db with
  | nil => exact hm
  | cons x xs ih =>
    rw [List.foldl_cons]
    exact ih _ (save_memory_mem_mono _ _ _ _ _ _ hm)

theorem foldl_save_memory_mem_cases {β : Type} (p t : String) (g catf : β → String)
    (L : List β) (db : DB) :
    ∀ m ∈ (L.foldl (fun d x => save_memory d p (g x) (catf x) t) db).memories,
      m ∈ db.memories ∨ ∃ x ∈ L, m.phone = p ∧ m.fact = g x ∧ m.category = catf x := by
  induction L generalizing db with
  | nil => exact fun m hm => Or.inl hm
  | cons x xs ih =>
    intro m hm
    rw [List.foldl_cons] at hm
    rcases ih _ m hm with h | ⟨y, hy, hh⟩
    · rcases save_memory_mem_cases _ _ _ _ _ _ h with h' | h'
      · exact Or.inl h'
      · exact Or.inr ⟨x, List.mem_cons_self x xs, h'⟩
    · exact Or.inr ⟨y, List.mem_cons_of_mem _ hy, hh⟩

theorem foldl_save_memory_present {β : Type} (p t : String) (g catf : β → String)
    (L : List β) (db : DB) :
    ∀ x ∈ L, ∃ m ∈ (L.foldl (fun d x => save_memory d p (g x) (catf x) t) db).memories,
      m.phone = p ∧ m.fact = g x := by
  induction L generalizing db with
  | nil => intro x hx; cases hx
  | cons y ys ih =>
    intro x hx
    rw [List.foldl_cons]
    rcases List.mem_cons.mp hx with rfl | hx'
    · rcases save_memory_present db p (g x) (catf x) t with ⟨m, hm, hmp⟩
      exact ⟨m, foldl_save_memory_mem_mono p t g catf ys _ m hm, hmp⟩
    · exact ih _ x hx'

/-! ## Import replay lemmas. -/

/-- A snapshot message entry has every key the replay INSERT reads. -/
def msgEntryOk (e : MsgEntry) : Bool :=
  e.phone.isSome && e.role.isSome && e.content.isSome && e.timestamp.isSome

/-- A snapshot memory entry has every key the replay INSERT reads. -/
def memEntryOk (e : MemEntry) : Bool :=
  e.phone.isSome && e.fact.isSome && e.category.isSome && e.timestamp.isSome

/-- A snapshot summary entry has every key the replay INSERT reads. -/
def sumEntryOk (e : SumEntry) : Bool :=
  e.phone.isSome && e.summary.isSome && e.message_count.isSome && e.timestamp.isSome

/-- The id-less column tuple of a message row. -/
def msgTuple (m : Message) : String × String × String × String :=
  (m.phone, m.role, m.content, m.timestamp)

/-- The column tuple a well-formed snapshot message entry inserts. -/
def msgEntryTuple (e : MsgEntry) : String × String × String × String :=
  (e.phone.getD "", e.role.getD "", e.content.getD "", e.timestamp.getD "")

/-- The id-less column tuple of a summary row. -/
def sumTuple (s : Summary) : String × String × Int × String :=
  (s.phone, s.summary, s.message_count, s.timestamp)

/-- The column tuple a well-formed snapshot summary entry inserts. -/
def sumEntryTuple (e : SumEntry) : String × String × Int × String :=
  (e.phone.getD "", e.summary.getD "", e.message_count.getD 0, e.timestamp.getD "")

theorem import_one_message_memories (db : DB) (e : MsgEntry) :
    (import_one_message db e).memories = db.memories := by
  unfold import_one_message
  split <;> rfl

theorem import_one_message_summaries (db : DB) (e : MsgEntry) :
    (import_one_message db e).summaries = db.summaries := by
  unfold import_one_message
  split <;> rfl

theorem foldl_import_message_memories (L : List MsgEntry) (db : DB) :
    (L.foldl import_one_message db).memories = db.memories := by
  induction L generalizing db with
  | nil => rfl
  | cons e es ih => rw [List.foldl_cons, ih, import_one_message_memories]

theorem foldl_import_message_summaries (L : List MsgEntry) (db : DB) :
    (L.foldl import_one_message db).summaries = db.summaries := by
  induction L generalizing db with
  | nil => rfl
  | cons e es ih => rw [List.foldl_cons, ih, import_one_message_summaries]

theorem foldl_import_message_map (L : List MsgEntry) (db : DB) :
    (L.foldl import_one_message db).messages.map msgTuple =
      db.messages.map msgTuple ++ (L.filter msgEntryOk).map msgEntryTuple := by
  induction L generalizing db with
  | nil => simp
  | cons e es ih =>
    rw [List.foldl_cons, ih]
    rcases e with ⟨p, r, c, t⟩
    cases p <;> cases r <;> cases c <;> cases t <;>
      simp [import_one_message, insert_message, msgEntryOk, msgTuple, msgEntryTuple,
        List.filter_cons]

theorem import_one_summary_memories (db : DB) (e : SumEntry) :
    (import_one_summary db e).memories = db.memories := by
  unfold import_one_summary
  split <;> rfl

theorem import_one_summary_messages (db : DB) (e : SumEntry) :
    (import_one_summary db e).messages = db.messages := by
  unfold import_one_summary
  split <;> rfl

theorem foldl_import_summary_memories (L : List SumEntry) (db : DB) :
    (L.foldl import_one_summary db).memories = db.memories := by
  induction L generalizing db with
  | nil => rfl
  | cons e es ih => rw [List.foldl_cons, ih, import_one_summary_memories]

theorem foldl_import_summary_messages (L : List SumEntry) (db : DB) :
    (L.foldl import_one_summary db).messages = db.messages := by
  induction L generalizing db with
  | nil => rfl
  | cons e es ih => rw [List.foldl_cons, ih, import_one_summary_messages]

theorem foldl_import_summary_map (L : List SumEntry) (db : DB) :
    (L.foldl import_one_summary db).summaries.map sumTuple =
      db.summaries.map sumTuple ++ (L.filter sumEntryOk).map sumEntryTuple := by
  induction L generalizing db with
  | nil => simp
  | cons e es ih =>
    rw [List.foldl_cons, ih]
    rcases e with ⟨p, su, mc, t⟩
    cases p <;> cases su <;> cases mc <;> cases t <;>
      simp [import_one_summary, insert_summary, sumEntryOk, sumTuple, sumEntryTuple,
        List.filter_cons]

theorem import_one_memory_messages (db : DB) (e : MemEntry) :
    (import_one_memory db e).messages = db.messages := by
  unfold import_one_memory
  split
  · exact save_memory_messages _ _ _ _ _
  · rfl

theorem import_one_memory_summaries (db : DB) (e : MemEntry) :
    (import_one_memory db e).summaries = db.summaries := by
  unfold import_one_memory
  split
  · exact save_memory_summaries _ _ _ _ _
  · rfl

theorem foldl_import_memory_messages (L : List MemEntry) (db : DB) :
    (L.foldl import_one_memory db).messages = db.messages := by
  induction L generalizing db with
  | nil => rfl
  | cons e es ih => rw [List.foldl_cons, ih, import_one_memory_messages]

theorem foldl_import_memory_summaries (L : List MemEntry) (db : DB) :
    (L.foldl import_one_memory db).summaries = db.summaries := by
  induction L generalizing db with
  | nil => rfl
  | cons e es ih => rw [List.foldl_cons, ih, import_one_memory_summaries]

theorem import_one_memory_mem_mono (db : DB) (e : MemEntry) (m : Memory)
    (hm : m ∈ db.memories) : m ∈ (import_one_memory db e).memories := by
  unfold import_one_memory
  split
  · exact save_memory_mem_mono _ _ _ _ _ _ hm
  · exact hm

theorem foldl_import_memory_mem_mono (L : List MemEntry) (db : DB) (m : Memory)
    (hm : m ∈ db.memories) : m ∈ (L.foldl import_one_memory db).memories := by
  induction L generalizing db with
  | nil => exact hm
  | cons e es ih =>
    rw [List.foldl_cons]
    exact ih _ (import_one_memory_mem_mono _ _ _ hm)

theorem import_one_memory_noop (db : DB) (e : MemEntry)
    (h : ∀ p f, e.phone = some p → e.fact = some f →
      ∃ m ∈ db.memories, m.phone = p ∧ m.fact = f) :
    import_one_memory db e = db := by
  unfold import_one_memory
  split
  · rename_i p f c t hp hf hc ht
    exact save_memory_of_present db p f c t (h p f hp hf)
  · rfl

theorem foldl_import_memory_noop (L : List MemEntry) (db : DB)
    (h : ∀ e ∈ L, ∀ p f, e.phone = some p → e.fact = some f →
      ∃ m ∈ db.memories, m.phone = p ∧ m.fact = f) :
    L.foldl import_one_memory db = db := by
  induction L with
  | nil => rfl
  | cons e es ih =>
    rw [List.foldl_cons, import_one_memory_noop db e (h e (List.mem_cons_self e es))]
    exact ih (fun e' he' => h e' (List.mem_cons_of_mem e he'))

theorem foldl_import_memory_present (L : List MemEntry) (db : DB) :
    ∀ e ∈ L, memEntryOk e = true →
      ∃ m ∈ (L.foldl import_one_memory db).memories,
        some m.phone = e.phone ∧ some m.fact = e.fact := by
  induction L generalizing db with
  | nil => intro e he; cases he
  | cons y ys ih =>
    intro e he hok
    rw [List.foldl_cons]
    rcases List.mem_cons.mp he with rfl | he'
    · rcases e with ⟨p, f, c, t⟩
      simp only [memEntryOk, Bool.and_eq_true, Option.isSome_iff_exists] at hok
      rcases hok with ⟨⟨⟨⟨p', hp⟩, f', hf⟩, c', hc⟩, t', ht⟩
      subst hp; subst hf; subst hc; subst ht
      have : import_one_memory db ⟨some p', some f', some c', some t'⟩ =
          save_memory db p' f' c' t' := rfl
      rw [this]
      rcases save_memory_present db p' f' c' t' with ⟨m, hm, hmp, hmf⟩
      exact ⟨m, foldl_import_memory_mem_mono ys _ m hm, by rw [hmp], by rw [hmf]⟩
    · exact ih _ e he' hok

/-! ## FactExtractor first-match lemmas. -/

theorem categoryMatches_iff (u : String) (kws : List String) :
    categoryMatches u kws ↔ (kws.any fun kw => strContains (toLowerStr u) kw) = true := by
  unfold categoryMatches
  rw [List.any_eq_true]

theorem findSome_matcher_first (s cat : String) (kws : List String)
    (pre post : List (String × List String))
    (hpre : ∀ q ∈ pre, (q.2.any fun kw => strContains s kw) = false)
    (hmatch : (kws.any fun kw => strContains s kw) = true) :
    (pre ++ (cat, kws) :: post).findSome?
      (fun q => if q.2.any (fun kw => strContains s kw) then some q.1 else none) = some cat := by
  induction pre with
  | nil =>
    rw [List.nil_append, List.findSome?_cons]
    simp [hmatch]
  | cons q qs ih =>
    rw [List.cons_append, List.findSome?_cons]
    have hq := hpre q (List.mem_cons_self q qs)
    simp only [hq, Bool.false_eq_true, if_false]
    exact ih fun q' hq' => hpre q' (List.mem_cons_of_mem q hq')

theorem FirstMatching_of_findSome (s : String) (L : List (String × List String)) (cat : String)
    (h : L.findSome?
      (fun q => if q.2.any (fun kw => strContains s kw) then some q.1 else none) = some cat) :
    ∃ pre kws post, L = pre ++ (cat, kws) :: post ∧
      (∀ q ∈ pre, (q.2.any fun kw => strContains s kw) = false) ∧
      (kws.any fun kw => strContains s kw) = true := by
  induction L with
  | nil => simp at h
  | cons q qs ih =>
    rcases q with ⟨qc, qk⟩
    rw [List.findSome?_cons] at h
    by_cases hq : (qk.any fun kw => strContains s kw) = true
    · rw [if_pos hq] at h
      have hcat : qc = cat := Option.some.inj h
      subst hcat
      exact ⟨[], qk, qs, by simp, by simp, hq⟩
    · rw [if_neg hq] at h
      rcases ih h with ⟨pre, kws, post, hL, hpre, hmatch⟩
      refine ⟨(qc, qk) :: pre, kws, post, by rw [hL, List.cons_append], ?_, hmatch⟩
      intro q' hq'
      rcases List.mem_cons.mp hq' with rfl | hq''
      · exact Bool.eq_false_iff.mpr hq
      · exact hpre q' hq''

theorem firstMatchCategory_of_FirstMatching (u cat : String) (kws : List String)
    (h : FirstMatching u cat kws) : firstMatchCategory (toLowerStr u) = some cat := by
  rcases h with ⟨pre, post, hL, hpre, hmatch⟩
  unfold firstMatchCategory
  rw [hL]
  refine findSome_matcher_first (toLowerStr u) cat kws pre post ?_
    ((categoryMatches_iff u kws).mp hmatch)
  intro q hq
  exact Bool.eq_false_iff.mpr fun hc => hpre q hq ((categoryMatches_iff u q.2).mpr hc)

theorem FirstMatching_of_firstMatchCategory (u cat : String)
    (h : firstMatchCategory (toLowerStr u) = some cat) : ∃ kws, FirstMatching u cat kws := by
  unfold firstMatchCategory at h
  rcases FirstMatching_of_findSome (toLowerStr u) fact_patterns cat h with
    ⟨pre, kws, post, hL, hpre, hmatch⟩
  refine ⟨kws, pre, post, hL, ?_, (categoryMatches_iff u kws).mpr hmatch⟩
  intro q hq hc
  have h1 := hpre q hq
  rw [(categoryMatches_iff u q.2).mp hc] at h1
  cases h1

/-! ## Summarizer helper lemmas. -/

theorem save_summary_summaries_eq (db : DB) (p su : String) (mc : Int) (t : String) :
    (save_summary db p su mc t).summaries =
      db.summaries ++ [⟨db.nextSummaryId, p, su, mc, t⟩] := rfl

theorem save_summary_messages (db : DB) (p su : String) (mc : Int) (t : String) :
    (save_summary db p su mc t).messages = db.messages := rfl

theorem save_summary_memories (db : DB) (p su : String) (mc : Int) (t : String) :
    (save_summary db p su mc t).memories = db.memories := rfl

theorem facts_fold_messages (L : List String) (phone now : String) (db : DB) :
    (L.foldl (fun d f => save_memory d phone f "extracted" now) db).messages = db.messages :=
  foldl_save_memory_messages phone now (fun f => f) (fun _ => "extracted") L db

theorem facts_fold_summaries (L : List String) (phone now : String) (db : DB) :
    (L.foldl (fun d f => save_memory d phone f "extracted" now) db).summaries = db.summaries :=
  foldl_save_memory_summaries phone now (fun f => f) (fun _ => "extracted") L db

theorem facts_fold_mem_mono (L : List String) (phone now : String) (db : DB) (m : Memory)
    (hm : m ∈ db.memories) :
    m ∈ (L.foldl (fun d f => save_memory d phone f "extracted" now) db).memories :=
  foldl_save_memory_mem_mono phone now (fun f => f) (fun _ => "extracted") L db m hm

theorem facts_fold_mem_cases (L : List String) (phone now : String) (db : DB) :
    ∀ m ∈ (L.foldl (fun d f => save_memory d phone f "extracted" now) db).memories,
      m ∈ db.memories ∨ ∃ x ∈ L, m.phone = phone ∧ m.fact = x ∧ m.category = "extracted" :=
  foldl_save_memory_mem_cases phone now (fun f => f) (fun _ => "extracted") L db

theorem facts_fold_present (L : List String) (phone now : String) (db : DB) :
    ∀ x ∈ L, ∃ m ∈ (L.foldl (fun d f => save_memory d phone f "extracted" now) db).memories,
      m.phone = phone ∧ m.fact = x :=
  foldl_save_memory_present phone now (fun f => f) (fun _ => "extracted") L db

theorem actions_fold_messages (L : List String) (phone now : String) (db : DB) :
    (L.foldl (fun d it => save_memory d phone ("ACTION: " ++ it) "action_item" now) db).messages =
      db.messages :=
  foldl_save_memory_messages phone now (fun it => "ACTION: " ++ it) (fun _ => "action_item") L db

theorem actions_fold_summaries (L : List String) (phone now : String) (db : DB) :
    (L.foldl (fun d it => save_memory d phone ("ACTION: " ++ it) "action_item" now) db).summaries =
      db.summaries :=
  foldl_save_memory_summaries phone now (fun it => "ACTION: " ++ it) (fun _ => "action_item") L db

theorem actions_fold_mem_mono (L : List String) (phone now : String) (db : DB) (m : Memory)
    (hm : m ∈ db.memories) :
    m ∈ (L.foldl (fun d it => save_memory d phone ("ACTION: " ++ it) "action_item" now)
      db).memories :=
  foldl_save_memory_mem_mono phone now (fun it => "ACTION: " ++ it) (fun _ => "action_item")
    L db m hm

theorem actions_fold_mem_cases (L : List String) (phone now : String) (db : DB) :
    ∀ m ∈ (L.foldl (fun d it => save_memory d phone ("ACTION: " ++ it) "action_item" now)
        db).memories,
      m ∈ db.memories ∨
        ∃ x ∈ L, m.phone = phone ∧ m.fact = "ACTION: " ++ x ∧ m.category = "action_item" :=
  foldl_save_memory_mem_cases phone now (fun it => "ACTION: " ++ it) (fun _ => "action_item") L db

theorem actions_fold_present (L : List String) (phone now : String) (db : DB) :
    ∀ x ∈ L,
      ∃ m ∈ (L.foldl (fun d it => save_memory d phone ("ACTION: " ++ it) "action_item" now)
        db).memories, m.phone = phone ∧ m.fact = "ACTION: " ++ x :=
  foldl_save_memory_present phone now (fun it => "ACTION: " ++ it) (fun _ => "action_item") L db

theorem summarize_success_eq (db : DB) (phone raw text s now : String)
    (parse : String → Option SummaryResult) (r : SummaryResult)
    (hlen : ¬((get_all_history db phone).length < 4))
    (hsf : stripFence raw = some text) (hp : parse text = some r)
    (hsum : r.summary = some s) (hs : s ≠ "") :
    summarize_and_extract db phone (some raw) parse now =
      r.action_items.foldl (fun d it => save_memory d phone ("ACTION: " ++ it) "action_item" now)
        (r.facts.foldl (fun d f => save_memory d phone f "extracted" now)
          (save_summary db phone s ((get_all_history db phone).length : Int) now)) := by
  simp only [summarize_and_extract, if_neg hlen, hsf, hp, hsum, if_neg hs]

/-! ## Remaining small lemmas. -/

theorem save_memory_memories_length (db : DB) (p f c t : String) :
    (save_memory db p f c t).memories.length ≤ db.memories.length + 1 := by
  unfold save_memory insert_or_ignore_memory
  split
  · exact Nat.le_succ _
  · rw [List.length_append]
    exact Nat.le_refl _

theorem countFact_save_same (db : DB) (p f c t : String) (h : countFact db p f = 0) :
    countFact (save_memory db p f c t) p f = 1 := by
  have hfil : db.memories.filter (fun m => m.phone == p && m.fact == f) = [] :=
    List.length_eq_zero.mp h
  have hany : ¬(db.memories.any (fun m => m.phone == p && m.fact == f) = true) := by
    intro hc
    rcases List.any_eq_true.mp hc with ⟨m, hm, hmt⟩
    have : m ∈ db.memories.filter (fun m => m.phone == p && m.fact == f) :=
      List.mem_filter.mpr ⟨hm, hmt⟩
    rw [hfil] at this
    cases this
  unfold countFact save_memory insert_or_ignore_memory
  rw [if_neg hany]
  show ((db.memories ++ [(⟨db.nextMemoryId, p, f, c, t⟩ : Memory)]).filter _).length = 1
  rw [List.filter_append, hfil]
  simp

theorem countFact_save_memory_ne (db : DB) (p f c t q g : String) (h : ¬(p = q ∧ f = g)) :
    countFact (save_memory db p f c t) q g = countFact db q g := by
  unfold countFact save_memory insert_or_ignore_memory
  split
  · rfl
  · show ((db.memories ++ [(⟨db.nextMemoryId, p, f, c, t⟩ : Memory)]).filter _).length = _
    rw [List.filter_append]
    have hb : ((p == q) && (f == g)) = false := by
      rcases not_and_or.mp h with h' | h' <;> simp [h']
    simp [List.filter_cons, hb]

/-! ## Concrete fixtures used by witnesses and counterexamples. -/

/-- A store holding four messages for identity "p" (summarizer threshold). -/
def dbFour : DB :=
  save_message (save_message (save_message (save_message emptyDB "p" "user" "a" "t1")
    "p" "assistant" "b" "t2") "p" "user" "c" "t3") "p" "assistant" "d" "t4"

/-- A store holding one message, one fact and one summary for identity "p". -/
def dbOne : DB :=
  save_summary (save_memory (save_message emptyDB "p" "user" "hi" "t1") "p" "f" "general" "t2")
    "p" "s" 1 "t3"

/-- A parse oracle: decoded JSON with an empty summary value and a
duplicated facts entry. -/
def parseEmptySummary : String → Option SummaryResult := fun _ => some ⟨some "", ["a", "a"], []⟩

/-- A parse oracle: well-formed decoded JSON with one fact and one action item. -/
def parseGood : String → Option SummaryResult := fun _ => some ⟨some "s", ["a"], ["call bob"]⟩

/-- A parse oracle that always fails (malformed model response). -/
def parseFail : String → Option SummaryResult := fun _ => none

/-- A snapshot mixing well-formed entries with entries missing one key. -/
def dataMixed : SnapshotData :=
  { messages := some [⟨some "p", some "user", some "hello", some "t1"⟩,
                      ⟨none, some "user", some "bad", some "t2"⟩],
    memories := some [⟨some "p", some "likes tea", some "preference", some "t3"⟩,
                      ⟨some "p", none, some "x", some "t4"⟩],
    summaries := some [⟨some "p", some "sum", some 2, some "t5"⟩,
                       ⟨some "p", some "bad", none, some "t6"⟩],
    exported_at := some "t7" }

/-! ## The claims. -/

/-- C1: `record` (save_memory) is idempotent on the (identity, fact) pair:
a second call with the same (identity, fact) — even with another category
and timestamp — is a no-op leaving exactly one matching row, and the same
fact text under a second identity yields its own row. -/
theorem C1_record_idempotent (db : DB) (p1 p2 f c1 c2 c3 t1 t2 t3 : String)
    (h1 : countFact db p1 f = 0) (h2 : countFact db p2 f = 0) (hne : p1 ≠ p2) :
    save_memory (save_memory db p1 f c1 t1) p1 f c2 t2 = save_memory db p1 f c1 t1 ∧
    countFact (save_memory (save_memory db p1 f c1 t1) p1 f c2 t2) p1 f = 1 ∧
    countFact (save_memory (save_memory db p1 f c1 t1) p2 f c3 t3) p1 f = 1 ∧
    countFact (save_memory (save_memory db p1 f c1 t1) p2 f c3 t3) p2 f = 1 := by
  have hnoop : save_memory (save_memory db p1 f c1 t1) p1 f c2 t2 =
      save_memory db p1 f c1 t1 :=
    save_memory_of_present _ p1 f c2 t2 (save_memory_present db p1 f c1 t1)
  refine ⟨hnoop, ?_, ?_, ?_⟩
  · rw [hnoop]
    exact countFact_save_same db p1 f c1 t1 h1
  · rw [countFact_save_memory_ne _ p2 f c3 t3 p1 f (fun hc => hne (hc.1.symm))]
    exact countFact_save_same db p1 f c1 t1 h1
  · rw [countFact_save_same]
    rw [countFact_save_memory_ne db p1 f c1 t1 p2 f (fun hc => hne hc.1)]
    exact h2

/-- C1 witness: concrete double record of ("a", "x") plus a record of the
same fact under identity "b". -/
theorem C1_record_idempotent_witness :
    save_memory (save_memory emptyDB "a" "x" "general" "u1") "a" "x" "personal" "u2" =
      save_memory emptyDB "a" "x" "general" "u1" ∧
    countFact (save_memory (save_memory emptyDB "a" "x" "general" "u1") "a" "x" "personal" "u2")
      "a" "x" = 1 ∧
    countFact (save_memory (save_memory emptyDB "a" "x" "general" "u1") "b" "x" "general" "u3")
      "a" "x" = 1 ∧
    countFact (save_memory (save_memory emptyDB "a" "x" "general" "u1") "b" "x" "general" "u3")
      "b" "x" = 1 :=
  C1_record_idempotent emptyDB "a" "b" "x" "general" "personal" "general" "u1" "u2" "u3"
    (by decide) (by decide) (by decide)

/-- C3 counterexample: on "My name is Sam and I like tea" the extractor
stores category "preference" (the phrase "i like" of the preference
category, first in table order, matches), not "personal" as claimed. -/
theorem C3_counterexample :
    (extract_memories_from_message emptyDB "p" "My name is Sam and I like tea" "t").memories.map
        (fun m => m.category) = ["preference"] ∧
    ¬((extract_memories_from_message emptyDB "p" "My name is Sam and I like tea" "t").memories.map
        (fun m => m.category) = ["personal"]) := by
  decide

/-- C3 (amended): on "My name is Sam and I like tea" the extractor records
exactly one Fact, with category "preference" — the first matching
category in table order, since "i like" is a preference phrase. -/
theorem C3_first_match_is_preference :
    (extract_memories_from_message emptyDB "p" "My name is Sam and I like tea" "t").memories.map
        (fun m => (m.phone, m.fact, m.category)) =
      [("p", "My name is Sam and I like tea", "preference")] := by
  decide

/-- C4 counterexample: the stored fact is the stripped utterance, not the
utterance verbatim — on " i like tea " the stored text is "i like tea". -/
theorem C4_counterexample :
    (extract_memories_from_message emptyDB "p" " i like tea " "t").memories.map
        (fun m => m.fact) = ["i like tea"] ∧
    "i like tea" ≠ " i like tea " := by
  decide

/-- C4 (amended): the extractor records at most one Fact per utterance; it
scans the category table in the fixed order preference, personal, goal,
business, reminder with case-insensitive substring matching, stores the
utterance stripped of surrounding whitespace under the FIRST matching
category and stops, and records nothing (without error) when no phrase
matches; messages and summaries are never touched. -/
theorem C4_extractor_first_match (db : DB) (p u t : String) :
    ((∀ cat kws, ¬FirstMatching u cat kws) → extract_memories_from_message db p u t = db) ∧
    (∀ cat kws, FirstMatching u cat kws →
      extract_memories_from_message db p u t = save_memory db p (trimStr u) cat t) ∧
    (extract_memories_from_message db p u t).memories.length ≤ db.memories.length + 1 ∧
    (extract_memories_from_message db p u t).messages = db.messages ∧
    (extract_memories_from_message db p u t).summaries = db.summaries := by
  refine ⟨?_, ?_, ?_, ?_, ?_⟩
  · intro hno
    unfold extract_memories_from_message
    cases hfm : firstMatchCategory (toLowerStr u) with
    | none => rfl
    | some cat =>
      rcases FirstMatching_of_firstMatchCategory u cat hfm with ⟨kws, hf⟩
      exact absurd hf (hno cat kws)
  · intro cat kws hf
    unfold extract_memories_from_message
    rw [firstMatchCategory_of_FirstMatching u cat kws hf]
  · unfold extract_memories_from_message
    cases hfm : firstMatchCategory (toLowerStr u) with
    | none => exact Nat.le_succ _
    | some cat => exact save_memory_memories_length db p (trimStr u) cat t
  · unfold extract_memories_from_message
    cases hfm : firstMatchCategory (toLowerStr u) with
    | none => rfl
    | some cat => exact save_memory_messages db p (trimStr u) cat t
  · unfold extract_memories_from_message
    cases hfm : firstMatchCategory (toLowerStr u) with
    | none => rfl
    | some cat => exact save_memory_summaries db p (trimStr u) cat t

/-- C4 witness: the amended claim at the concrete utterance
"I love hiking on weekends" over the empty store. -/
theorem C4_extractor_first_match_witness :
    ((∀ cat kws, ¬FirstMatching "I love hiking on weekends" cat kws) →
      extract_memories_from_message emptyDB "p" "I love hiking on weekends" "t" = emptyDB) ∧
    (∀ cat kws, FirstMatching "I love hiking on weekends" cat kws →
      extract_memories_from_message emptyDB "p" "I love hiking on weekends" "t" =
        save_memory emptyDB "p" (trimStr "I love hiking on weekends") cat "t") ∧
    (extract_memories_from_message emptyDB "p" "I love hiking on weekends" "t").memories.length ≤
      emptyDB.memories.length + 1 ∧
    (extract_memories_from_message emptyDB "p" "I love hiking on weekends" "t").messages =
      emptyDB.messages ∧
    (extract_memories_from_message emptyDB "p" "I love hiking on weekends" "t").summaries =
      emptyDB.summaries :=
  C4_extractor_first_match emptyDB "p" "I love hiking on weekends" "t"

/-- C8: a sequence of appends to one identity is returned by
`get_all_history` (fullHistory) exactly in append order, oldest first,
after any prior history of that identity. -/
theorem C8_full_history_append_order (db : DB) (phone : String)
    (xs : List (String × String × String)) (h : WfMessages db) :
    get_all_history (replayAppends db phone xs) phone =
      get_all_history db phone ++ xs.map (fun x => ⟨x.1, x.2.1, x.2.2⟩) := by
  induction xs generalizing db with
  | nil => simp [replayAppends]
  | cons x xs ih =>
    have hstep : replayAppends db phone (x :: xs) =
        replayAppends (save_message db phone x.1 x.2.1 x.2.2) phone xs := rfl
    rw [hstep, ih (save_message db phone x.1 x.2.1 x.2.2)
        (wfMessages_insert_message db phone x.1 x.2.1 x.2.2 h),
      get_all_history_save_same db phone x.1 x.2.1 x.2.2 h]
    simp

/-- C8 witness: two appends to identity "p" over the empty store. -/
theorem C8_full_history_append_order_witness :
    get_all_history
        (replayAppends emptyDB "p" [("user", "hi", "t1"), ("assistant", "yo", "t2")]) "p" =
      get_all_history emptyDB "p" ++
        [("user", "hi", "t1"), ("assistant", "yo", "t2")].map (fun x => ⟨x.1, x.2.1, x.2.2⟩) :=
  C8_full_history_append_order emptyDB "p" [("user", "hi", "t1"), ("assistant", "yo", "t2")]
    (by decide)

/-- C9: `get_conversation_history` (recentHistory) with a limit at least
the identity's message count returns the same sequence as
`get_all_history` (fullHistory). -/
theorem C9_recent_eq_full (db : DB) (phone : String) (k : Nat) (h : WfMessages db)
    (hk : get_message_count db phone ≤ k) :
    get_conversation_history db phone k = get_all_history db phone := by
  rw [get_conversation_history_eq_filter db phone k h, get_all_history_eq_filter db phone h]
  have hlen : (db.messages.filter (fun m => m.phone == phone)).reverse.length ≤ k := by
    rw [List.length_reverse]
    exact hk
  rw [List.take_of_length_le hlen, List.reverse_reverse]

/-- C9 witness: a four-message store with limit 50. -/
theorem C9_recent_eq_full_witness :
    get_conversation_history dbFour "p" 50 = get_all_history dbFour "p" :=
  C9_recent_eq_full dbFour "p" 50 (by decide) (by decide)

/-- C7: with fewer than 4 stored messages for the identity the summarizer
returns the store unchanged, for EVERY model response and parse oracle —
the result does not depend on them, which is the observational content of
"no external call is issued". -/
theorem C7_below_threshold_noop (db : DB) (phone : String)
    (h : get_message_count db phone < 4) (resp : Option String)
    (parse : String → Option SummaryResult) (now : String) :
    summarize_and_extract db phone resp parse now = db := by
  have hlen : (get_all_history db phone).length < 4 := by
    rw [length_get_all_history]
    exact h
  simp [summarize_and_extract, hlen]

/-- C7 witness: the empty store with a response that would otherwise
write rows. -/
theorem C7_below_threshold_noop_witness :
    summarize_and_extract emptyDB "p" (some "x") parseGood "t" = emptyDB :=
  C7_below_threshold_noop emptyDB "p" (by decide) (some "x") parseGood "t"

/-- C6: when the model call raises (`resp = none`) or its response does
not parse (fence stripping raises or the parse oracle returns none),
the summarizer returns the store unchanged: no message, fact or summary
row is written.  The embedding is total, mirroring that the source
swallows the exception at this boundary. -/
theorem C6_failure_no_write (db : DB) (phone now raw : String)
    (parse : String → Option SummaryResult)
    (hfail : (stripFence raw).bind parse = none) :
    summarize_and_extract db phone none parse now = db ∧
    summarize_and_extract db phone (some raw) parse now = db := by
  constructor
  · by_cases hlen : (get_all_history db phone).length < 4 <;>
      simp [summarize_and_extract, hlen]
  · by_cases hlen : (get_all_history db phone).length < 4
    · simp [summarize_and_extract, hlen]
    · cases hsf : stripFence raw with
      | none => simp [summarize_and_extract, hlen, hsf]
      | some text =>
        rw [hsf] at hfail
        have hp : parse text = none := hfail
        simp [summarize_and_extract, hlen, hsf, hp]

/-- C6 witness: a four-message store with a failing parse oracle, both for
a missing response and a present response. -/
theorem C6_failure_no_write_witness :
    summarize_and_extract dbFour "p" none parseFail "t" = dbFour ∧
    summarize_and_extract dbFour "p" (some "x") parseFail "t" = dbFour :=
  C6_failure_no_write dbFour "p" "t" "x" parseFail (by decide)

/-- C2 counterexample: on a four-message store, a response parsing with
all three keys present — summary value "" and facts ["a", "a"] — writes
ZERO Summary rows (the falsy summary is skipped) and only ONE Fact row
(the duplicate entry is deduplicated), not one Summary and two Facts as
the claim states. -/
theorem C2_counterexample :
    parseEmptySummary "x" = some ⟨some "", ["a", "a"], []⟩ ∧
    get_message_count dbFour "p" = 4 ∧
    (summarize_and_extract dbFour "p" (some "x") parseEmptySummary "t5").summaries.length =
      dbFour.summaries.length ∧
    (summarize_and_extract dbFour "p" (some "x") parseEmptySummary "t5").memories.length =
      dbFour.memories.length + 1 := by
  decide

/-- C2 (amended): with at least 4 stored messages and a response that,
after fence stripping, parses with keys summary, facts and action_items:
if the summary value is non-empty, exactly one Summary row is appended
whose message_count is the identity's total message count at call time;
every facts entry is recorded through the idempotent fact record under
category "extracted" and every action_items entry as its "ACTION: "-
prefixed text under "action_item" (a new row only where the (identity,
text) pair was absent); messages are untouched and no other rows appear. -/
theorem C2_summarizer_success (db : DB) (phone raw text s now : String)
    (parse : String → Option SummaryResult) (r : SummaryResult)
    (hcount : 4 ≤ get_message_count db phone)
    (hsf : stripFence raw = some text) (hp : parse text = some r)
    (hsum : r.summary = some s) (hs : s ≠ "") :
    (summarize_and_extract db phone (some raw) parse now).messages = db.messages ∧
    (summarize_and_extract db phone (some raw) parse now).summaries =
      db.summaries ++ [⟨db.nextSummaryId, phone, s, (get_message_count db phone : Int), now⟩] ∧
    (∀ f ∈ r.facts, ∃ m ∈ (summarize_and_extract db phone (some raw) parse now).memories,
      m.phone = phone ∧ m.fact = f) ∧
    (∀ a ∈ r.action_items,
      ∃ m ∈ (summarize_and_extract db phone (some raw) parse now).memories,
        m.phone = phone ∧ m.fact = "ACTION: " ++ a) ∧
    (∀ m ∈ (summarize_and_extract db phone (some raw) parse now).memories,
      m ∈ db.memories ∨ (m.phone = phone ∧
        ((m.fact ∈ r.facts ∧ m.category = "extracted") ∨
          ∃ a ∈ r.action_items, m.fact = "ACTION: " ++ a ∧ m.category = "action_item"))) := by
  have hlen : ¬((get_all_history db phone).length < 4) := by
    rw [length_get_all_history]
    omega
  rw [summarize_success_eq db phone raw text s now parse r hlen hsf hp hsum hs,
    length_get_all_history]
  refine ⟨?_, ?_, ?_, ?_, ?_⟩
  · rw [actions_fold_messages, facts_fold_messages, save_summary_messages]
  · rw [actions_fold_summaries, facts_fold_summaries, save_summary_summaries_eq]
  · intro f hf
    rcases facts_fold_present r.facts phone now _ f hf with ⟨m, hm, hmp⟩
    exact ⟨m, actions_fold_mem_mono r.action_items phone now _ m hm, hmp⟩
  · intro a ha
    exact actions_fold_present r.action_items phone now _ a ha
  · intro m hm
    rcases actions_fold_mem_cases r.action_items phone now _ m hm with hm2 | ⟨x, hx, h1, h2, h3⟩
    · rcases facts_fold_mem_cases r.facts phone now _ m hm2 with hm3 | ⟨x, hx, h1, h2, h3⟩
      · rw [save_summary_memories] at hm3
        exact Or.inl hm3
      · exact Or.inr ⟨h1, Or.inl ⟨h2 ▸ hx, h3⟩⟩
    · exact Or.inr ⟨h1, Or.inr ⟨x, hx, h2, h3⟩⟩

/-- C2 witness: the amended claim at a four-message store with the
response parsed as summary "s", one fact "a" and one action "call bob". -/
theorem C2_summarizer_success_witness :
    (summarize_and_extract dbFour "p" (some "x") parseGood "t5").messages = dbFour.messages ∧
    (summarize_and_extract dbFour "p" (some "x") parseGood "t5").summaries =
      dbFour.summaries ++
        [⟨dbFour.nextSummaryId, "p", "s", (get_message_count dbFour "p" : Int), "t5"⟩] ∧
    (∀ f ∈ (["a"] : List String),
      ∃ m ∈ (summarize_and_extract dbFour "p" (some "x") parseGood "t5").memories,
        m.phone = "p" ∧ m.fact = f) ∧
    (∀ a ∈ (["call bob"] : List String),
      ∃ m ∈ (summarize_and_extract dbFour "p" (some "x") parseGood "t5").memories,
        m.phone = "p" ∧ m.fact = "ACTION: " ++ a) ∧
    (∀ m ∈ (summarize_and_extract dbFour "p" (some "x") parseGood "t5").memories,
      m ∈ dbFour.memories ∨ (m.phone = "p" ∧
        ((m.fact ∈ (["a"] : List String) ∧ m.category = "extracted") ∨
          ∃ a ∈ (["call bob"] : List String),
            m.fact = "ACTION: " ++ a ∧ m.category = "action_item"))) :=
  C2_summarizer_success dbFour "p" "x" "x" "s" "t5" parseGood ⟨some "s", ["a"], ["call bob"]⟩
    (by decide) (by decide) rfl rfl (by decide)

/-- C5 counterexample: importing a store's own export back into it does
NOT leave an equal Summary multiset — the summary rows double (here 1
becomes 2), because summaries are replayed as fresh appends. -/
theorem C5_counterexample :
    dbOne.summaries.length = 1 ∧
    (import_memory_from_json dbOne (export_memory_to_json dbOne "now")).summaries.length = 2 := by
  decide

/-- C5 (amended): export followed by import on the same store leaves the
Fact rows exactly unchanged (every replay hits the UNIQUE(phone, fact)
ignore path), while exactly doubling BOTH the Message rows and the
Summary rows (both are replayed as fresh non-deduplicated appends, so the
column tuples appear twice in order). -/
theorem C5_export_import_roundtrip (db : DB) (now : String) (h : Wf db) :
    (import_memory_from_json db (export_memory_to_json db now)).memories = db.memories ∧
    (import_memory_from_json db (export_memory_to_json db now)).messages.map msgTuple =
      db.messages.map msgTuple ++ db.messages.map msgTuple ∧
    (import_memory_from_json db (export_memory_to_json db now)).messages.length =
      2 * db.messages.length ∧
    (import_memory_from_json db (export_memory_to_json db now)).summaries.map sumTuple =
      db.summaries.map sumTuple ++ db.summaries.map sumTuple ∧
    (import_memory_from_json db (export_memory_to_json db now)).summaries.length =
      2 * db.summaries.length := by
  obtain ⟨hmsg, hmem, hsum⟩ := h
  have hexp : export_memory_to_json db now =
      ⟨some (db.messages.map fun m => ⟨some m.phone, some m.role, some m.content,
          some m.timestamp⟩),
        some (db.memories.map fun m => ⟨some m.phone, some m.fact, some m.category,
          some m.timestamp⟩),
        some (db.summaries.map fun v => ⟨some v.phone, some v.summary, some v.message_count,
          some v.timestamp⟩),
        some now⟩ := by
    unfold export_memory_to_json
    rw [insertionSort_asc_of_pairwise Message.id _ hmsg.1,
      insertionSort_asc_of_pairwise Memory.id _ hmem.1,
      insertionSort_asc_of_pairwise Summary.id _ hsum.1]
  have himp : import_memory_from_json db (export_memory_to_json db now) =
      (db.summaries.map fun v => (⟨some v.phone, some v.summary, some v.message_count,
          some v.timestamp⟩ : SumEntry)).foldl import_one_summary
        ((db.memories.map fun m => (⟨some m.phone, some m.fact, some m.category,
            some m.timestamp⟩ : MemEntry)).foldl import_one_memory
          ((db.messages.map fun m => (⟨some m.phone, some m.role, some m.content,
              some m.timestamp⟩ : MsgEntry)).foldl import_one_message db)) := by
    rw [hexp]
    rfl
  have hnoop : (db.memories.map fun m => (⟨some m.phone, some m.fact, some m.category,
        some m.timestamp⟩ : MemEntry)).foldl import_one_memory
        ((db.messages.map fun m => (⟨some m.phone, some m.role, some m.content,
            some m.timestamp⟩ : MsgEntry)).foldl import_one_message db) =
      (db.messages.map fun m => (⟨some m.phone, some m.role, some m.content,
          some m.timestamp⟩ : MsgEntry)).foldl import_one_message db := by
    apply foldl_import_memory_noop
    intro e he p f hp hf
    rcases List.mem_map.mp he with ⟨m0, hm0, rfl⟩
    refine ⟨m0, ?_, Option.some.inj hp, Option.some.inj hf⟩
    rw [foldl_import_message_memories]
    exact hm0
  have hmsgfil : (db.messages.map fun m => (⟨some m.phone, some m.role, some m.content,
        some m.timestamp⟩ : MsgEntry)).filter msgEntryOk =
      db.messages.map fun m => ⟨some m.phone, some m.role, some m.content, some m.timestamp⟩ := by
    apply List.filter_eq_self.mpr
    intro e he
    rcases List.mem_map.mp he with ⟨m0, _, rfl⟩
    rfl
  have hsumfil : (db.summaries.map fun v => (⟨some v.phone, some v.summary,
        some v.message_count, some v.timestamp⟩ : SumEntry)).filter sumEntryOk =
      db.summaries.map fun v => ⟨some v.phone, some v.summary, some v.message_count,
        some v.timestamp⟩ := by
    apply List.filter_eq_self.mpr
    intro e he
    rcases List.mem_map.mp he with ⟨v0, _, rfl⟩
    rfl
  have hmessages : (import_memory_from_json db (export_memory_to_json db now)).messages.map
      msgTuple = db.messages.map msgTuple ++ db.messages.map msgTuple := by
    rw [himp, hnoop, foldl_import_summary_messages, foldl_import_message_map, hmsgfil,
      List.map_map]
    rfl
  have hsummaries : (import_memory_from_json db (export_memory_to_json db now)).summaries.map
      sumTuple = db.summaries.map sumTuple ++ db.summaries.map sumTuple := by
    rw [himp, hnoop, foldl_import_summary_map, foldl_import_message_summaries, hsumfil,
      List.map_map]
    rfl
  refine ⟨?_, hmessages, ?_, hsummaries, ?_⟩
  · rw [himp, foldl_import_summary_memories, hnoop, foldl_import_message_memories]
  · have := congrArg List.length hmessages
    simp only [List.length_map, List.length_append] at this
    omega
  · have := congrArg List.length hsummaries
    simp only [List.length_map, List.length_append] at this
    omega

/-- C5 witness: the amended claim at a store holding one message, one
fact and one summary. -/
theorem C5_export_import_roundtrip_witness :
    (import_memory_from_json dbOne (export_memory_to_json dbOne "now")).memories =
      dbOne.memories ∧
    (import_memory_from_json dbOne (export_memory_to_json dbOne "now")).messages.map msgTuple =
      dbOne.messages.map msgTuple ++ dbOne.messages.map msgTuple ∧
    (import_memory_from_json dbOne (export_memory_to_json dbOne "now")).messages.length =
      2 * dbOne.messages.length ∧
    (import_memory_from_json dbOne (export_memory_to_json dbOne "now")).summaries.map sumTuple =
      dbOne.summaries.map sumTuple ++ dbOne.summaries.map sumTuple ∧
    (import_memory_from_json dbOne (export_memory_to_json dbOne "now")).summaries.length =
      2 * dbOne.summaries.length :=
  C5_export_import_roundtrip dbOne "now" (by decide)

/-- C10: snapshot import is total (the model never fails, mirroring the
per-entry try/except): a snapshot dictionary with none of the three list
keys changes nothing; an entry missing a required key is skipped while
every well-formed message and summary entry is appended in order; and
every well-formed memory entry's (identity, fact) pair is present in the
store afterwards (inserted through the idempotent record). -/
theorem C10_import_skips_malformed (db : DB) (data : SnapshotData) :
    (data.messages = none → data.memories = none → data.summaries = none →
      import_memory_from_json db data = db) ∧
    (import_memory_from_json db data).messages.map msgTuple =
      db.messages.map msgTuple ++
        ((data.messages.getD []).filter msgEntryOk).map msgEntryTuple ∧
    (import_memory_from_json db data).summaries.map sumTuple =
      db.summaries.map sumTuple ++
        ((data.summaries.getD []).filter sumEntryOk).map sumEntryTuple ∧
    (∀ e ∈ data.memories.getD [], memEntryOk e = true →
      ∃ m ∈ (import_memory_from_json db data).memories,
        some m.phone = e.phone ∧ some m.fact = e.fact) := by
  simp only [import_memory_from_json]
  refine ⟨?_, ?_, ?_, ?_⟩
  · intro h1 h2 h3
    rw [h1, h2, h3]
    rfl
  · rw [foldl_import_summary_messages, foldl_import_memory_messages, foldl_import_message_map]
  · rw [foldl_import_summary_map, foldl_import_memory_summaries, foldl_import_message_summaries]
  · intro e he hok
    rw [foldl_import_summary_memories]
    exact foldl_import_memory_present _ _ e he hok

/-- C10 witness: a snapshot mixing well-formed entries with entries each
missing one required key, imported into the empty store. -/
theorem C10_import_skips_malformed_witness :
    (dataMixed.messages = none → dataMixed.memories = none → dataMixed.summaries = none →
      import_memory_from_json emptyDB dataMixed = emptyDB) ∧
    (import_memory_from_json emptyDB dataMixed).messages.map msgTuple =
      emptyDB.messages.map msgTuple ++
        ((dataMixed.messages.getD []).filter msgEntryOk).map msgEntryTuple ∧
    (import_memory_from_json emptyDB dataMixed).summaries.map sumTuple =
      emptyDB.summaries.map sumTuple ++
        ((dataMixed.summaries.getD []).filter sumEntryOk).map sumEntryTuple ∧
    (∀ e ∈ dataMixed.memories.getD [], memEntryOk e = true →
      ∃ m ∈ (import_memory_from_json emptyDB dataMixed).memories,
        some m.phone = e.phone ∧ some m.fact = e.fact) :=
  C10_import_skips_malformed emptyDB dataMixed

end Autominds
